import Mathlib

/-!
Verification of the query/caching engine of an Omeka-S caching proxy.

The development shallowly embeds the JavaScript source files (src/api.js,
src/utils/query.js, src/utils/normalize.js, src/utils/snippets.js,
src/types.js and the route layer) as executable Lean definitions and proves
the specified properties about them.  Platform collaborators (the redis
cache, the upstream HTTP API, Intl collators, the Date parser) are passed in
as explicit oracles; machine strings are Lean strings (JavaScript UTF-16
code-unit lengths are computed explicitly where the source depends on them).
-/

namespace Omeka

/-- Raw JSON-LD value entry, an element of a property array such as
item["dcterms:title"]: carries "@language" and "@value".  A missing
"@language" is represented by none (JavaScript undefined). -/
structure RawValue where
  lang : Option String
  value : String
deriving DecidableEq, Repr, Inhabited

/-- Raw linked-resource reference carrying value_resource_id, an element of a
linked-property array such as item["dcterms:creator"]. -/
structure RawRef where
  value_resource_id : Nat
deriving DecidableEq, Repr, Inhabited

/-- Raw upstream item as consumed by src/api.js.  Fields mirror the JSON keys
the source reads; a property that may be absent is an Option. -/
structure RawItem where
  oid : Nat                          -- o:id
  atType : List String               -- "@type" (array form)
  title : Option (List RawValue)     -- dcterms:title
  description : Option (List RawValue)  -- dcterms:description
  alternative : Option (List RawValue)  -- dcterms:alternative
  date : Option (List RawValue)      -- dcterms:date
  extractedText : Option (List RawValue) -- extracttext:extracted_text
  modified : Option (List RawValue)  -- o:modified
  creator : Option (List RawRef)     -- dcterms:creator
  category : Option (List RawRef)    -- curation:category
  theme : Option (List RawRef)       -- curation:theme
  coverage : Option (List RawRef)    -- dcterms:coverage
  media : Option (List Nat)          -- o:media, projected to the o:id of each entry
  thumbnailMedium : Option String    -- thumbnail_display_urls.medium
  isPartOf : Bool                    -- whether "dcterms:isPartOf" is non-null
deriving DecidableEq, Repr, Inhabited

/-- Facet keys of src/types.js: the four linked types. -/
inductive TypeKey where
  | creator
  | objectType
  | theme
  | era
deriving DecidableEq, Repr, Inhabited

/-- Configuration of one entry of the types table in src/types.js. -/
structure TypeCfg where
  term : String
  property : String
deriving DecidableEq, Repr, Inhabited

/-- Mapping of domain keys to their RDF term and raw item property
(src/types.js, "types"). -/
def types : TypeKey → TypeCfg
  | .creator => { term := "foaf:Person", property := "dcterms:creator" }
  | .objectType => { term := "skos:Concept", property := "curation:category" }
  | .theme => { term := "dctype:Collection", property := "curation:theme" }
  | .era => { term := "dctype:Event", property := "dcterms:coverage" }

/-- Key order of the types object, used wherever the source iterates
Object.entries(types) or Object.keys(types). -/
def typeKeys : List TypeKey := [.creator, .objectType, .theme, .era]

/-- Reads item[types[k].property] from a raw item. -/
def RawItem.prop (it : RawItem) : TypeKey → Option (List RawRef)
  | .creator => it.creator
  | .objectType => it.category
  | .theme => it.theme
  | .era => it.coverage

/-- Normalized localizable value: the result of normalizeValue
(src/utils/normalize.js).  A single value collapses to a scalar string; an
array of length greater than one becomes a language-keyed object.  The
object's keys follow JavaScript Object.fromEntries: first-occurrence order,
last-occurrence value; the JavaScript key for a missing "@language" is the
string "undefined". -/
inductive NormValue where
  | scalar (s : String)
  | byLang (entries : List (String × String))
deriving DecidableEq, Repr, Inhabited

/-- JavaScript String.prototype.trim: strip leading and trailing
whitespace. -/
def jsTrim (s : String) : String :=
  String.mk
    (((s.data.dropWhile Char.isWhitespace).reverse.dropWhile Char.isWhitespace).reverse)

/-- Object.fromEntries semantics: duplicate keys keep the position of the
first occurrence and the value of the last occurrence. -/
def fromEntriesJS (ps : List (String × String)) : List (String × String) :=
  ps.foldl
    (fun acc kv =>
      if acc.any (fun p => p.1 = kv.1) then
        acc.map (fun p => if p.1 = kv.1 then (p.1, kv.2) else p)
      else acc ++ [kv])
    []

/-- Normalize a value from the API into a language-indexed object or single
value (normalizeValue, src/utils/normalize.js lines 14-27).  The input is
the raw property array (none when the item lacks the property); none in the
output is JavaScript undefined (omitted by omitNullish).  String values are
trimmed (safeTrim). -/
def normalizeValue : Option (List RawValue) → Option NormValue
  | none => none
  | some [] => none
  | some [v] => some (.scalar (jsTrim v.value))
  | some vs =>
    some (.byLang (fromEntriesJS (vs.map (fun v => (v.lang.getD "undefined", jsTrim v.value)))))

/-- Term list of Object.values(types).map(t => t.term) in key order. -/
def typeTerms : List String := typeKeys.map (fun k => (types k).term)

/-- Determine the content type key for an item (normalizeType,
src/utils/normalize.js lines 49-61): the first "@type" entry that is a known
term selects its key, otherwise "object". -/
def normalizeType (it : RawItem) : String :=
  match it.atType.find? (fun t => typeTerms.contains t) with
  | none => "object"
  | some term =>
    match typeKeys.find? (fun k => (types k).term = term) with
    | some .creator => "creator"
    | some .objectType => "objectType"
    | some .theme => "theme"
    | some .era => "era"
    | none => "object"

/-- JavaScript String.prototype.split(",") : every comma separates a field;
an empty string yields one empty field. -/
def splitCommaAux : List Char → List Char → List String
  | [], cur => [String.mk cur.reverse]
  | c :: rest, cur =>
    if c = ',' then String.mk cur.reverse :: splitCommaAux rest []
    else splitCommaAux rest (c :: cur)

/-- Split a string on commas, JavaScript split(",") semantics. -/
def splitComma (s : String) : List String := splitCommaAux s.data []

/-- JavaScript String.prototype.length: UTF-16 code units (astral code
points count twice). -/
def utf16Len (s : String) : Nat :=
  (s.data.map (fun c => if 0x10000 ≤ c.toNat then 2 else 1)).sum

/-- Model of the Unicode property Script=Han over the principal Han blocks
(the regex /\p{Script=Han}/u of normalizeSearchString). -/
def isHan (c : Char) : Bool :=
  let n := c.toNat
  (0x2E80 ≤ n && n ≤ 0x2EF3) || (0x2F00 ≤ n && n ≤ 0x2FD5) ||
  (n = 0x3005) || (n = 0x3007) || (0x3021 ≤ n && n ≤ 0x3029) ||
  (0x3038 ≤ n && n ≤ 0x303B) || (0x3400 ≤ n && n ≤ 0x4DBF) ||
  (0x4E00 ≤ n && n ≤ 0x9FFF) || (0xF900 ≤ n && n ≤ 0xFA6D) ||
  (0xFA70 ≤ n && n ≤ 0xFAD9) || (0x20000 ≤ n && n ≤ 0x2A6DF) ||
  (0x2A700 ≤ n && n ≤ 0x2EBE0) || (0x2F800 ≤ n && n ≤ 0x2FA1D)

/-- Whether the string contains a Han-script character. -/
def containsHan (s : String) : Bool := s.data.any isHan

/-- Lexicographic comparison of character lists by code point. -/
def charListLE : List Char → List Char → Bool
  | [], _ => true
  | _ :: _, [] => false
  | a :: as, b :: bs =>
    if a = b then charListLE as bs
    else decide (a.toNat < b.toNat)

/-- Lexicographic nonstrict string order, modelling the comparison of
JavaScript's default Array.prototype.sort (JavaScript compares UTF-16 code
units, which agrees with code-point order except between astral characters
and the code points U+E000 to U+FFFF, none of which the development relies
on). -/
def strLE (a b : String) : Prop := charListLE a.data b.data = true

instance : DecidableRel strLE := fun a b =>
  inferInstanceAs (Decidable (charListLE a.data b.data = true))

/-- Stable ascending sort of strings, modelling JavaScript's default
Array.prototype.sort. -/
def sortStrings (xs : List String) : List String :=
  List.insertionSort strLE xs

/-- Filter a comma-separated search string to the values that are at least
3 UTF-16 units long or contain a Han character, then sort
(normalizeSearchString, src/utils/normalize.js lines 254-260).  The string
is split on commas without trimming. -/
def normalizeSearchString (searchString : Option String) : List String :=
  match searchString with
  | none => []
  | some s => sortStrings ((splitComma s).filter (fun t => 3 ≤ utf16Len t || containsHan t))

/-- Entry of a by-type facet list: the mapped record of getFilterByType. -/
structure FilterEntry where
  id : Nat
  title : Option NormValue
  count : Nat
deriving DecidableEq, Repr, Inhabited

/-- Entry of the year facet list. -/
structure YearEntry where
  value : String
  count : Nat
deriving DecidableEq, Repr, Inhabited

/-- Descending-count order used by the facet sorts
(the comparator (a, b) => b.count - a.count). -/
def entryGE (a b : FilterEntry) : Prop := b.count ≤ a.count

instance : DecidableRel entryGE := fun a b => inferInstanceAs (Decidable (b.count ≤ a.count))

instance : IsTotal FilterEntry entryGE :=
  ⟨fun a b => (Nat.le_total b.count a.count).elim Or.inl Or.inr⟩

instance : IsTrans FilterEntry entryGE :=
  ⟨fun _ _ _ h h' => Nat.le_trans h' h⟩

/-- Descending-count order on year entries. -/
def yearGE (a b : YearEntry) : Prop := b.count ≤ a.count

instance : DecidableRel yearGE := fun a b => inferInstanceAs (Decidable (b.count ≤ a.count))

instance : IsTotal YearEntry yearGE :=
  ⟨fun a b => (Nat.le_total b.count a.count).elim Or.inl Or.inr⟩

instance : IsTrans YearEntry yearGE :=
  ⟨fun _ _ _ h h' => Nat.le_trans h' h⟩

/-- Year of an item: item["dcterms:date"]?.[0]?.["@value"]?.split("-")[0],
with the falsy (empty) value rejected, as in getFilterYears. -/
def yearOf (it : RawItem) : Option String :=
  match it.date with
  | none => none
  | some [] => none
  | some (v :: _) =>
    let y := String.mk (v.value.data.takeWhile (fun c => c ≠ '-'))
    if y = "" then none else some y

/-- JavaScript object increment years[year] = 1 + (years[year] ?? 0): the
first occurrence appends the key, later occurrences update in place. -/
def bumpKey : List (String × Nat) → String → List (String × Nat)
  | [], k => [(k, 1)]
  | p :: rest, k =>
    if p.1 = k then (p.1, p.2 + 1) :: rest else p :: bumpKey rest k

/-- Accumulated years object of getFilterYears. -/
def yearsMap (allItems : List RawItem) : List (String × Nat) :=
  allItems.foldl
    (fun acc it =>
      match yearOf it with
      | none => acc
      | some y => bumpKey acc y)
    []

/-- Whether a string is a JavaScript array-index property key (a canonical
numeric string below 2^32 - 1); such keys enumerate first, in ascending
numeric order. -/
def isArrayIndexKey (s : String) : Bool :=
  match s.toNat? with
  | some n => decide (toString n = s) && decide (n < 4294967295)
  | none => false

/-- Ascending numeric order on array-index keys. -/
def idxLE (a b : String × Nat) : Prop := (a.1.toNat?.getD 0) ≤ (b.1.toNat?.getD 0)

instance : DecidableRel idxLE := fun a b =>
  inferInstanceAs (Decidable ((a.1.toNat?.getD 0) ≤ (b.1.toNat?.getD 0)))

/-- JavaScript Object.entries enumeration order: array-index keys first in
ascending numeric order, then the remaining keys in insertion order. -/
def jsObjectEntries (pairs : List (String × Nat)) : List (String × Nat) :=
  List.insertionSort idxLE (pairs.filter (fun p => isArrayIndexKey p.1)) ++
    pairs.filter (fun p => ¬ isArrayIndexKey p.1)

/-- Year histogram facet (getFilterYears, src/api.js lines 71-89 of the
current revision; identical at lines 474-493 of the earlier one): count
items per year and sort descending by count. -/
def getFilterYears (allItems : List RawItem) : List YearEntry :=
  List.insertionSort yearGE
    ((jsObjectEntries (yearsMap allItems)).map (fun p => { value := p.1, count := p.2 }))

/-- Whether item[property] contains a reference to the given resource id
(the inner allItems.filter(item => item[property]?.find(c =>
c.value_resource_id === id)) of getFilterByType). -/
def hasRefTo (k : TypeKey) (target : Nat) (it : RawItem) : Bool :=
  match it.prop k with
  | none => false
  | some refs => refs.any (fun r => r.value_resource_id = target)

/-- By-type facet list (getFilterByType, src/api.js lines 92-114): items
whose "@type" includes the configured term become entries with the count of
items referencing them; zero counts are dropped and the list is sorted
descending by count (stable, as JavaScript sort). -/
def getFilterByType (k : TypeKey) (allItems : List RawItem) : List FilterEntry :=
  List.insertionSort entryGE
    (((allItems.filter (fun it => it.atType.contains (types k).term)).map
        (fun it =>
          { id := it.oid
            title := normalizeValue it.title
            count := (allItems.filter (hasRefTo k it.oid)).length })).filter
      (fun e => decide (0 < e.count)))

/-- Facet set: the value cached under "filters". -/
structure Filters where
  year : List YearEntry
  creator : List FilterEntry
  objectType : List FilterEntry
  theme : List FilterEntry
  era : List FilterEntry
deriving DecidableEq, Repr, Inhabited

/-- Exclusion of "part"/issue items: items whose curation:category contains
a reference to category id 4561 (the filter building allItemsButIssues in
getFilters, src/api.js lines 526-533 of the revision that the facet claims
cite). -/
def isIssueItem (it : RawItem) : Bool :=
  match it.category with
  | none => false
  | some cats => (cats.map (fun r => r.value_resource_id)).contains 4561

/-- Mirror restricted to non-part items. -/
def allItemsButIssues (allItems : List RawItem) : List RawItem :=
  allItems.filter (fun it => ¬ isIssueItem it)

/-- Force-zeroing of the excluded category id in the objectType facet
(filter => filter.id === 4561 ? { ...filter, count: 0 } : filter). -/
def forceZero4561 (e : FilterEntry) : FilterEntry :=
  if e.id = 4561 then { e with count := 0 } else e

/-- Facet set computation (getFilters, src/api.js lines 521-545): year,
creator, theme and era facets are computed over the non-part mirror, while
objectType is computed over all items and then force-zeroed for category
id 4561.  The surrounding "filters" cache read/write is the cache
collaborator and not part of the computation. -/
def getFilters (allItems : List RawItem) : Filters :=
  let base := allItemsButIssues allItems
  { year := getFilterYears base
    creator := getFilterByType .creator base
    objectType := (getFilterByType .objectType allItems).map forceZero4561
    theme := getFilterByType .theme base
    era := getFilterByType .era base }

/-- Result of one upstream page request of the bulk fetch: the parsed JSON
array, or a raised error (a rejected fetch or res.json()). -/
inductive PageResult where
  | ok (items : List RawItem)
  | fail (e : Nat)
deriving DecidableEq, Repr, Inhabited

/-- View of an Except value as a sum, for deciding equality. -/
def exceptToSum {ε α : Type} : Except ε α → ε ⊕ α
  | .error e => .inl e
  | .ok a => .inr a

instance {ε α : Type} [DecidableEq ε] [DecidableEq α] : DecidableEq (Except ε α) :=
  fun x y =>
    decidable_of_iff (exceptToSum x = exceptToSum y)
      (by cases x <;> cases y <;> simp [exceptToSum])

/-- Outcome of one getAllItems run: the value returned or the error
propagated, the "allItems" cache entry after the run, and the number of
upstream page requests made. -/
structure AllItemsOutcome where
  outcome : Except Nat (List RawItem)
  cacheAfter : Option (List RawItem)
  calls : Nat
deriving DecidableEq, Repr

/-- Paging loop of getAllItems (src/api.js lines 49-63): starting at page 1,
fetch pages sequentially, appending each page's items, and break exactly
when a page returns zero items.  The result pairs the accumulated items
with the number of upstream calls.  fuel bounds the number of iterations so
the definition is total; none models a run that exceeds it (the source loop
would still be running). -/
def getAllItemsGo (upstream : Nat → PageResult) :
    Nat → Nat → List RawItem → Nat → Option (Except Nat (List RawItem × Nat))
  | 0, _, _, _ => none
  | fuel + 1, page, acc, calls =>
    match upstream page with
    | .fail e => some (.error e)
    | .ok data =>
      if data.isEmpty then some (.ok (acc, calls + 1))
      else getAllItemsGo upstream fuel (page + 1) (acc ++ data) (calls + 1)

/-- Number of calls made before an error surfaces: the loop above does not
carry it in the error, so it is recomputed for the outcome record. -/
def getAllItemsGoCalls (upstream : Nat → PageResult) :
    Nat → Nat → Nat → Nat
  | 0, _, calls => calls
  | fuel + 1, page, calls =>
    match upstream page with
    | .fail _ => calls + 1
    | .ok data =>
      if data.isEmpty then calls + 1
      else getAllItemsGoCalls upstream fuel (page + 1) (calls + 1)

/-- Bulk mirror fetch (getAllItems, src/api.js lines 36-68) for a single
caller: on a cache hit (and no force) the cached mirror is returned with no
upstream call; otherwise the paging loop runs and only a completed run
writes the "allItems" cache entry — an error propagates and leaves the
cache untouched.  The awaitingAllItems single-flight flag concerns
concurrent callers and timers and is outside this one-caller model (the
flag is false throughout). -/
def getAllItems (upstream : Nat → PageResult) (fuel : Nat)
    (cache : Option (List RawItem)) (force : Bool) : Option AllItemsOutcome :=
  match cache, force with
  | some v, false => some { outcome := .ok v, cacheAfter := cache, calls := 0 }
  | _, _ =>
    match getAllItemsGo upstream fuel 1 [] 0 with
    | none => none
    | some (.error e) =>
      some { outcome := .error e, cacheAfter := cache
             calls := getAllItemsGoCalls upstream fuel 1 0 }
    | some (.ok (items, calls)) =>
      some { outcome := .ok items, cacheAfter := some items, calls := calls }

/-- Mirror size of a completed cold-cache run. -/
def mirrorSize (upstream : Nat → PageResult) (fuel : Nat) : Option Nat :=
  match getAllItems upstream fuel none false with
  | some { outcome := .ok items, .. } => some items.length
  | _ => none

/-- Upstream call count of a cold-cache run. -/
def mirrorCalls (upstream : Nat → PageResult) (fuel : Nat) : Option Nat :=
  match getAllItems upstream fuel none false with
  | some o => some o.calls
  | none => none

/-- Upstream response to the most-recently-modified poll of getLastModified:
res.ok and the parsed item array. -/
structure LastModResp where
  ok : Bool
  items : List RawItem
deriving DecidableEq, Repr, Inhabited

/-- Whether an item counts as modified within the window: currentTime minus
new Date(normalizeValue(item["o:modified"])).getTime() is below ms.  The
Date parser is the platform collaborator parseTime; none models NaN (an
unparsable date), for which the comparison is false. -/
def isRecentlyModified (parseTime : Option NormValue → Option Int) (now ms : Int)
    (it : RawItem) : Bool :=
  match parseTime (normalizeValue it.modified) with
  | none => false
  | some t => decide (now - t < ms)

/-- Modified-item poll (getLastModified, src/api.js lines 383-405): on a
non-OK response the tagged error is returned; otherwise the returned batch
is filtered to the items modified within the window, the item:details cache
of each is evicted, and the filtered list is returned. -/
def getLastModified (parseTime : Option NormValue → Option Int) (now : Int)
    (ms : Int) (resp : LastModResp) : Except Unit (List RawItem) :=
  if resp.ok then .ok (resp.items.filter (isRecentlyModified parseTime now ms))
  else .error ()

/-- Observable effects of one run of the invalidation-loop body. -/
structure UpdateEffects where
  ok : Bool
  evictedDetails : List Nat
  flushed : Bool
  evictedFirstPage : Bool
deriving DecidableEq, Repr

/-- Invalidation-loop body (update, route layer lines 121-136): polls the
20 most-recently-modified items over a 60 s window; a full flush plus
mirror rebuild is triggered exactly when the filtered batch length equals
the requested limit 20, and the first unfiltered page is evicted when any
item changed.  On an error result the length read is undefined, so neither
branch fires.  The setTimeout rescheduling is a timer effect outside the
model. -/
def update (parseTime : Option NormValue → Option Int) (now : Int)
    (resp : LastModResp) : UpdateEffects :=
  match getLastModified parseTime now (1000 * 60 * 1) resp with
  | .error _ => { ok := false, evictedDetails := [], flushed := false, evictedFirstPage := false }
  | .ok modifiedItems =>
    { ok := true
      evictedDetails := modifiedItems.map (fun it => it.oid)
      flushed := 20 = modifiedItems.length
      evictedFirstPage := 0 < modifiedItems.length }

/-- Environment defaults of src/env.js used by the engine. -/
def PAGE_LIMIT : Nat := 100

/-- Larger page limit used for filtered queries (src/env.js). -/
def PAGE_MAX_LIMIT : Nat := 10000

/-- Upstream API base URL (src/env.js default). -/
def OMEKA_API : String := "https://example.org/omeka/api"

/-- Keys of the filters object literal of parseQuery, in its insertion
order. -/
inductive FilterKey where
  | objectType
  | creator
  | theme
  | era
  | year
deriving DecidableEq, Repr, Inhabited

/-- Entry of filterConfig (src/types.js): types extended with year, which
carries a searchType override ("sw"); the others fall back to "res" in
filterQuery. -/
structure FilterCfg where
  property : String
  searchType : Option String
deriving DecidableEq, Repr, Inhabited

/-- Filter configuration used to build query strings (src/types.js,
"filterConfig"). -/
def filterConfig : FilterKey → FilterCfg
  | .objectType => { property := "curation:category", searchType := none }
  | .creator => { property := "dcterms:creator", searchType := none }
  | .theme => { property := "curation:theme", searchType := none }
  | .era => { property := "dcterms:coverage", searchType := none }
  | .year => { property := "dcterms:date", searchType := some "sw" }

/-- Key order of Object.entries(filters) in parseQuery. -/
def filterKeys : List FilterKey := [.objectType, .creator, .theme, .era, .year]

/-- Structured query object handed to parseQuery: the facet values are the
raw comma-separated strings of the route query, and a missing key is
none. -/
structure Query where
  objectType : Option String := none
  creator : Option String := none
  theme : Option String := none
  era : Option String := none
  year : Option String := none
  search : Option String := none
  limit : Option Nat := none
  page : Option String := none
  id : Option String := none
  lang : Option String := none
deriving DecidableEq, Repr, Inhabited

/-- Facet accessor of the query object by filter key. -/
def Query.facet (q : Query) : FilterKey → Option String
  | .objectType => q.objectType
  | .creator => q.creator
  | .theme => q.theme
  | .era => q.era
  | .year => q.year

/-- Hexadecimal digit (uppercase, as produced by encodeURIComponent). -/
def hexDigit (n : Nat) : Char :=
  if n < 10 then Char.ofNat (48 + n) else Char.ofNat (55 + n)

/-- Characters encodeURIComponent leaves unescaped. -/
def isUriUnescaped (c : Char) : Bool :=
  c.isAlphanum || c = '-' || c = '_' || c = '.' || c = '!' || c = '~' ||
    c = '*' || c.toNat = 39 || c = '(' || c = ')'

/-- Percent-encoding of one UTF-8 byte. -/
def percentEncodeByte (b : UInt8) : String :=
  String.mk ['%', hexDigit (b.toNat / 16), hexDigit (b.toNat % 16)]

/-- JavaScript encodeURIComponent: percent-encode the UTF-8 bytes of every
character outside the unescaped set. -/
def encodeURIComponent (s : String) : String :=
  String.join
    (s.data.map (fun c =>
      if isUriUnescaped c then String.singleton c
      else String.join (((String.singleton c).toUTF8.toList).map percentEncodeByte)))

/-- Build a single property[] query fragment (filterQuery,
src/utils/query.js lines 72-74); the type parameter defaults to "res" when
the config carries none (JavaScript parameter default on undefined). -/
def filterQuery (property value : String) (index : Nat) (searchType : Option String) : String :=
  let t := searchType.getD "res"
  "property[" ++ toString index ++ "][property]=" ++ property ++
    "&property[" ++ toString index ++ "][type]=" ++ t ++
    "&property[" ++ toString index ++ "][text]=" ++ value

/-- Result record of parseQuery.  The source's isFiltered is the first
matching key name (used only for truthiness downstream), modeled as the
Bool of its truthiness. -/
structure ParsedQuery where
  queryString : String
  isFiltered : Bool
  limit : Nat
deriving DecidableEq, Repr

/-- Comma-split of an optional facet value: query?.creator?.split(",") ??
[]. -/
def splitVals : Option String → List String
  | none => []
  | some s => splitComma s

/-- Convert a query object into an API query string (parseQuery,
src/utils/query.js lines 12-62): each facet's comma-separated values are
sorted and laid out as sequentially indexed property[] blocks in fixed key
order, followed by the optional fulltext_search, per_page, page and
optional id fragments. -/
def parseQuery (query : Query) (offset : Nat) : ParsedQuery :=
  let isFiltered :=
    (filterKeys.any (fun k => (query.facet k).isSome)) || query.search.isSome ||
      query.id.isSome
  let blocks :=
    (filterKeys.map (fun k => (sortStrings (splitVals (query.facet k))).map (fun v => (k, v)))).flatten
  let queryStrings :=
    blocks.enum.map (fun p =>
      filterQuery (filterConfig p.2.1).property p.2.2 (offset + p.1)
        (filterConfig p.2.1).searchType)
  let queryStrings :=
    match query.search with
    | some s =>
      if jsTrim s ≠ "" then queryStrings ++ ["fulltext_search=" ++ encodeURIComponent (jsTrim s)]
      else queryStrings
    | none => queryStrings
  let limit := query.limit.getD (if isFiltered then PAGE_MAX_LIMIT else PAGE_LIMIT)
  let queryStrings := queryStrings ++ ["per_page=" ++ toString limit]
  let queryStrings := queryStrings ++ ["page=" ++ encodeURIComponent (query.page.getD "1")]
  let queryStrings :=
    match query.id with
    | some i => if i ≠ "" then queryStrings ++ ["id=" ++ encodeURIComponent i] else queryStrings
    | none => queryStrings
  { queryString := String.intercalate "&" queryStrings
    isFiltered := isFiltered
    limit := limit }

/-- Resolved linked-property entry: the record built by
resolveLinkedProperties out of a facet entry. -/
structure Link where
  title : Option NormValue
  id : Nat
deriving DecidableEq, Repr, Inhabited

/-- Search snippet: the matched term (in original text case) together with
its context excerpt. -/
structure Snippet where
  term : String
  snippet : String
deriving DecidableEq, Repr, Inhabited

/-- Normalized item, the shape produced by normalizeOmekaFields
(src/utils/normalize.js lines 113-137) as used inside queryItems (include
= text and description; the heroes and items include flags are undefined
there, so those keys never appear).  none plays JavaScript
undefined/omitted. -/
structure NItem where
  id : Nat
  title : Option NormValue := none
  description : Option NormValue := none
  type : String := "object"
  titleAlt : Option NormValue := none
  published : Option NormValue := none
  text : Option NormValue := none
  media : Option (List Nat) := none
  thumbnail : Option String := none
  isPart : Bool := false
  creator : Option (List Link) := none
  objectType : Option (List Link) := none
  theme : Option (List Link) := none
  era : Option (List Link) := none
  snippets : Option (List Snippet) := none
deriving DecidableEq, Repr, Inhabited

/-- Facet list of the filters value by type key. -/
def Filters.byType (f : Filters) : TypeKey → List FilterEntry
  | .creator => f.creator
  | .objectType => f.objectType
  | .theme => f.theme
  | .era => f.era

/-- Linked-property list of a normalized item by type key. -/
def NItem.linked (it : NItem) : TypeKey → Option (List Link)
  | .creator => it.creator
  | .objectType => it.objectType
  | .theme => it.theme
  | .era => it.era

/-- First-occurrence deduplication by a numeric key (the findIndex filter of
resolveLinkedProperties). -/
def dedupByKey {α : Type} (key : α → Nat) (ls : List α) : List α :=
  ls.foldl (fun acc l => if acc.any (fun p => key p = key l) then acc else acc ++ [l]) []

/-- Map the raw item's linked resources of one type to resolved
title/id pairs (resolveLinkedProperties, src/utils/normalize.js lines
200-223): references whose id is absent from the facet list are dropped,
and the result is de-duplicated by id. -/
def resolveLinked (it : RawItem) (filters : Filters) (k : TypeKey) : Option (List Link) :=
  (it.prop k).map (fun refs =>
    dedupByKey (fun l => l.id)
      (refs.filterMap (fun r =>
        ((filters.byType k).find? (fun e => e.id = r.value_resource_id)).map
          (fun e => { title := e.title, id := e.id }))))

/-- Normalize a raw item (normalizeOmekaFields) with the include flags used
by queryItems.  overwriteFileUrl is the identity here because the file-URL
replacement env variables are unset in src/env.js defaults. -/
def normalizeOmekaFields (it : RawItem) (filters : Filters)
    (includeText includeDescription : Bool) : NItem :=
  { id := it.oid
    title := normalizeValue it.title
    description := if includeDescription then normalizeValue it.description else none
    type := normalizeType it
    titleAlt := normalizeValue it.alternative
    published := normalizeValue it.date
    text := if includeText then normalizeValue it.extractedText else none
    media := it.media
    thumbnail := it.thumbnailMedium
    isPart := it.isPartOf
    creator := resolveLinked it filters .creator
    objectType := resolveLinked it filters .objectType
    theme := resolveLinked it filters .theme
    era := resolveLinked it filters .era }

/-- Per-query facet counts (normalizeItemFilters, src/utils/normalize.js
lines 149-173), an object of count maps per filter key.  Normalized items
carry no "dcterms:date" key, so the year lookup is JavaScript undefined
and every item increments the "undefined" property, faithfully to the
source. -/
structure ItemFilters where
  creator : List (Nat × Nat)
  objectType : List (Nat × Nat)
  theme : List (Nat × Nat)
  era : List (Nat × Nat)
  year : List (String × Nat)
deriving DecidableEq, Repr, Inhabited

/-- Numeric-key variant of the JavaScript object increment. -/
def bumpKeyN : List (Nat × Nat) → Nat → List (Nat × Nat)
  | [], k => [(k, 1)]
  | p :: rest, k =>
    if p.1 = k then (p.1, p.2 + 1) :: rest else p :: bumpKeyN rest k

/-- Increment a count map once per linked entry. -/
def bumpLinks (m : List (Nat × Nat)) (ls : List Link) : List (Nat × Nat) :=
  ls.foldl (fun acc l => bumpKeyN acc l.id) m

/-- Generate counts for UI filters from a list of formatted items
(normalizeItemFilters). -/
def normalizeItemFilters (items : List NItem) : ItemFilters :=
  items.foldl
    (fun f it =>
      { creator := match it.creator with | none => f.creator | some ls => bumpLinks f.creator ls
        objectType := match it.objectType with | none => f.objectType | some ls => bumpLinks f.objectType ls
        theme := match it.theme with | none => f.theme | some ls => bumpLinks f.theme ls
        era := match it.era with | none => f.era | some ls => bumpLinks f.era ls
        year := bumpKey f.year "undefined" })
    { creator := [], objectType := [], theme := [], era := [], year := [] }

/-- Content of a quoted token up to the first closing quote, with the rest
of the input, if a closing quote exists. -/
def splitQuote : List Char → Option (String × List Char)
  | [] => none
  | c :: rest =>
    if c.toNat = 34 then some ("", rest)
    else (splitQuote rest).map (fun p => (String.singleton c ++ p.1, p.2))

/-- Token scan of the snippet tokenizer (the regex matching quoted parts or
runs of non-space characters in searchToRegex, src/utils/snippets.js lines
25-40), fuelled for totality. -/
def lexTokensGo : Nat → List Char → List String
  | 0, _ => []
  | _ + 1, [] => []
  | fuel + 1, c :: rest =>
    if c.isWhitespace then lexTokensGo fuel rest
    else
      match (if c.toNat = 34 then splitQuote rest else none) with
      | some (inside, after) => ("\"" ++ inside ++ "\"") :: lexTokensGo fuel after
      | none =>
        String.mk ((c :: rest).takeWhile (fun d => ¬ d.isWhitespace)) ::
          lexTokensGo fuel ((c :: rest).dropWhile (fun d => ¬ d.isWhitespace))

/-- Search terms of searchToRegex: whitespace/quote tokenization of the raw
search string with all quotation marks removed.  The regex escaping makes
each term a literal, so matching is literal and case-insensitive below. -/
def searchTerms (str : String) : List String :=
  (lexTokensGo (str.length + 1) str.data).map
    (fun t => String.mk (t.data.filter (fun c => c.toNat ≠ 34)))

/-- Case-insensitive literal match of a term at a position. -/
def ciMatchAt (text : List Char) (j : Nat) (t : String) : Bool :=
  let sub := (text.drop j).take t.length
  decide (sub.length = t.length) &&
    (List.zip sub t.data).all (fun p => p.1.toLower = p.2.toLower)

/-- Leftmost match at or after a position: the first alternative matching at
the smallest index, as the alternation regex behaves. -/
def findMatchFromGo (text : List Char) (terms : List String) : Nat → Nat → Option (Nat × String)
  | 0, _ => none
  | fuel + 1, j =>
    match terms.find? (fun t => ciMatchAt text j t) with
    | some t => some (j, t)
    | none => findMatchFromGo text terms fuel (j + 1)

/-- Leftmost match search over the whole remaining text. -/
def findMatchFrom (text : List Char) (terms : List String) (j : Nat) : Option (Nat × String) :=
  findMatchFromGo text terms (text.length + 1 - j) j

/-- Snippet record for a match at index i of length L: context of 60
characters on each side, trimmed, with ellipses when cut
(matchWithContext, src/utils/snippets.js lines 52-68). -/
def mkSnippet (text : List Char) (i L : Nat) : Snippet :=
  let term := String.mk ((text.drop i).take L)
  let start := i - 60
  let stop := min text.length (i + L + 60)
  let sliced := jsTrim (String.mk ((text.drop start).take (stop - start)))
  { term := term
    snippet := (if 0 < start then "…" else "") ++ sliced ++
      (if stop < text.length then "…" else "") }

/-- Exec loop of matchWithContext: repeated leftmost matches, each resuming
after the end of the previous one.  The fuel covers every run whose terms
are nonempty strings (a zero-length term would make the source's exec loop
spin forever). -/
def matchWithContextGo (text : List Char) (terms : List String) : Nat → Nat → List Snippet
  | 0, _ => []
  | fuel + 1, li =>
    match findMatchFrom text terms li with
    | none => []
    | some (i, t) =>
      mkSnippet text i t.length :: matchWithContextGo text terms fuel (i + t.length)

/-- Match text against the term alternation and return results with
context. -/
def matchWithContext (text : String) (terms : List String) : List Snippet :=
  matchWithContextGo text.data terms (text.data.length + 1) 0

/-- JavaScript ToString coercion applied by regex exec and the collator to
the values handed to them: undefined prints "undefined" and a plain object
prints "[object Object]". -/
def jsToString : Option NormValue → String
  | none => "undefined"
  | some (.scalar s) => s
  | some (.byLang _) => "[object Object]"

/-- Extract up to 3 text snippets around matches of the search terms in the
item's description and text fields (extractSnippets,
src/utils/snippets.js lines 9-18). -/
def extractSnippets (item : NItem) (search : String) : List Snippet :=
  let terms := searchTerms search
  (matchWithContext (jsToString item.description) terms ++
      matchWithContext (jsToString item.text) terms).take 3

/-- Value a title localizes to: a string, undefined, or a residual object
(localizeObject recursing over a non-language-keyed object returns an
object). -/
inductive LocValue where
  | undef
  | strv (s : String)
  | objv (entries : List (String × String))
deriving DecidableEq, Repr, Inhabited

/-- First value bound to a key in a language map. -/
def lookupStr (entries : List (String × String)) (k : String) : Option String :=
  (entries.find? (fun p => p.1 = k)).map (fun p => p.2)

/-- Localize a title (localizeObject, src/utils/helper.js lines 92-109)
applied to a normalized title value: a language-keyed map (all keys of
length 2) resolves to obj[lang] || obj[firstKey] || obj, where || skips
falsy (empty) strings; a scalar or undefined passes through; any other
object shape is rebuilt as an object. -/
def localizeTitle (t : Option NormValue) (lang : String) : LocValue :=
  match t with
  | none => .undef
  | some (.scalar s) => .strv s
  | some (.byLang entries) =>
    if entries.all (fun p => utf16Len p.1 = 2) then
      let byLangVal := (lookupStr entries lang).getD ""
      if byLangVal ≠ "" then .strv byLangVal
      else
        let firstVal := (entries.headD ("", "")).2
        if firstVal ≠ "" then .strv firstVal else .objv entries
    else .objv entries

/-- String the collator receives for a localized value (Intl compare
coerces its arguments with ToString). -/
def locToString : LocValue → String
  | .undef => "undefined"
  | .strv s => s
  | .objv _ => "[object Object]"

/-- Model of Intl.Collator("en", sensitivity base, numeric).  The platform
collation order itself is a collaborator; the claims depend only on which
languages the collators table covers, so the comparison is modeled as
code-point comparison. -/
def enCompare (a b : String) : Ordering := compare a b

/-- Model of Intl.Collator("zh-Hans-u-co-pinyin", sensitivity base,
numeric); as above, the pinyin order itself is a platform collaborator. -/
def zhCompare (a b : String) : Ordering := compare a b

/-- Collator table of src/api.js lines 26-32: exactly the keys "en" and
"zh"; any other language indexes to undefined. -/
def collators (lang : String) : Option (String → String → Ordering) :=
  if lang = "en" then some enCompare
  else if lang = "zh" then some zhCompare
  else none

/-- Comparator the creator/object sorts hand to toSorted:
collators[lang].compare(localizeObject(a.title, lang),
localizeObject(b.title, lang)), as a nonstrict order. -/
def titleLE (cmp : String → String → Ordering) (lang : String) (a b : NItem) : Bool :=
  cmp (locToString (localizeTitle a.title lang)) (locToString (localizeTitle b.title lang)) ≠ .gt

/-- Localized title sort of queryItems: toSorted with the collator
comparator.  A list of at most one element never invokes the comparator;
otherwise a missing collator (collators[lang] undefined) is a TypeError,
modeled as none. -/
def sortByTitle (lang : String) (xs : List NItem) : Option (List NItem) :=
  if xs.length ≤ 1 then some xs
  else
    match collators lang with
    | none => none
    | some cmp => some (List.insertionSort (fun a b => titleLE cmp lang a b = true) xs)

/-- Aggregate creator/object totals (the value cached under "counts"). -/
structure Counts where
  creators : Nat
  objects : Nat
deriving DecidableEq, Repr, Inhabited

/-- Cached or fresh query result: the record queryItems caches and
returns. -/
structure QueryResult where
  items : List NItem
  filters : Option ItemFilters
  hasNextPage : Bool
  counts : Counts
deriving DecidableEq, Repr, Inhabited

/-- Upstream response to the listing fetch of queryItems. -/
inductive ListingResp where
  | ok (items : List RawItem)
  | err (status : Nat)
deriving DecidableEq, Repr, Inhabited

/-- Collaborators of one queryItems run, each an oracle for an awaited
call: getItem projected to the items field the code reads, the query
cache, the listing fetch keyed by URL, and the getFilters, getCreators and
getCounts results. -/
structure World where
  getItemItems : Nat → Option (List Nat)
  queryCache : String → Option QueryResult
  listing : String → ListingResp
  filters : Filters
  creators : List NItem
  counts : Counts

/-- Options argument of queryItems (first revision of src/api.js). -/
structure QOptions where
  retrieveCreators : Bool := true
  removeCreators : Bool := false
deriving DecidableEq, Repr, Inhabited

/-- Outcome of a queryItems call: the empty object of an empty parent
scope, a propagated upstream error, a TypeError crash (missing collator),
or a result. -/
inductive QueryOutcome where
  | emptyResult
  | error (status : Nat)
  | crash
  | ok (r : QueryResult)
deriving DecidableEq, Repr, Inhabited

/-- Effects of the stateful steps inside one queryItems run. -/
structure RunEffects where
  didListingFetch : Bool
  wroteCache : Option String
deriving DecidableEq, Repr, Inhabited

/-- Effects of a whole queryItems call, including the caller-visible state
of the query argument object after the call. -/
structure QueryEffects where
  finalQuery : Query
  didListingFetch : Bool
  wroteCache : Option String
deriving DecidableEq, Repr, Inhabited

/-- Modelled from the spec: retrieveCreators (imported from
src/utils/retrieve.js, which is absent from the source tree).  Spec 4.4
step 7: "Optionally append cross-referenced creators not already present
in the result or the parent's own item set, deduplicated by id" — the
creators referenced by the result items' creator links that are neither in
the result nor the parent itself. -/
def retrieveCreators (items : List NItem) (creators : List NItem) (id : Option Nat) :
    List NItem :=
  let refIds := (items.map (fun it => ((it.creator).getD []).map (fun l => l.id))).flatten
  let presentIds := items.map (fun it => it.id)
  dedupByKey (fun c => c.id)
    (creators.filter (fun c =>
      refIds.contains c.id && !(presentIds.contains c.id) && (some c.id != id)))

/-- Joined linked-item ids: item.items.join(","). -/
def joinIds (l : List Nat) : String :=
  String.intercalate "," (l.map toString)

/-- Body of queryItems from the canonical query string on (src/api.js
lines 249-330 of the current revision).  The query object's contribution
is exactly the parsed query, the raw search string and the language, made
explicit as parameters. -/
def queryItemsRun (w : World) (id : Option Nat) (pq : ParsedQuery)
    (search lang0 : Option String) (options : QOptions) : RunEffects × QueryOutcome :=
  match w.queryCache ("query:" ++ pq.queryString) with
  | some r => ({ didListingFetch := false, wroteCache := none }, .ok r)
  | none =>
    match w.listing (OMEKA_API ++ "/items?sort_by=created&sort_order=desc&" ++ pq.queryString) with
    | .err st => ({ didListingFetch := true, wroteCache := none }, .error st)
    | .ok json =>
      let items := json.map (fun raw =>
        let nit := normalizeOmekaFields raw w.filters true true
        let nit :=
          match search with
          | some s =>
            if 0 < (normalizeSearchString (some s)).length then
              { nit with snippets := some (extractSnippets nit s) }
            else nit
          | none => nit
        { nit with text := none, description := none })
      let hasNextPage := pq.limit ≤ items.length
      let items :=
        if options.retrieveCreators then items ++ retrieveCreators items w.creators id
        else items
      let ignoreParts := id.isNone && search.isNone
      let creatorsL := items.filter (fun it => it.type = "creator")
      let objectsL :=
        (items.filter (fun it => it.type = "object")).filter
          (fun it => !ignoreParts || !it.isPart)
      let counts : Counts :=
        if hasNextPage then w.counts
        else { creators := creatorsL.length, objects := objectsL.length }
      let queryFilters := if pq.isFiltered then some (normalizeItemFilters items) else none
      let lang := lang0.getD "en"
      match sortByTitle lang (if options.removeCreators then [] else creatorsL) with
      | none => ({ didListingFetch := true, wroteCache := none }, .crash)
      | some sortedCreators =>
        match (if id.isSome then sortByTitle lang objectsL else some objectsL) with
        | none => ({ didListingFetch := true, wroteCache := none }, .crash)
        | some sortedObjects =>
          ({ didListingFetch := true, wroteCache := some ("query:" ++ pq.queryString) }
            , .ok { items := sortedObjects ++ sortedCreators
                    filters := queryFilters
                    hasNextPage := hasNextPage
                    counts := counts })

/-- Central read path (queryItems, src/api.js lines 238-330): a
parent-scoped call first resolves the parent's linked-item-id list through
getItem, returns the empty object when it is null or empty, and otherwise
writes the joined ids into the caller's query object before running the
canonical pipeline. -/
def queryItems (w : World) (id : Option Nat) (query : Query) (options : QOptions) :
    QueryEffects × QueryOutcome :=
  match id with
  | none =>
    let r := queryItemsRun w none (parseQuery query 0) query.search query.lang options
    ({ finalQuery := query, didListingFetch := r.1.didListingFetch
       wroteCache := r.1.wroteCache }, r.2)
  | some i =>
    match w.getItemItems i with
    | none =>
      ({ finalQuery := query, didListingFetch := false, wroteCache := none }, .emptyResult)
    | some [] =>
      ({ finalQuery := query, didListingFetch := false, wroteCache := none }, .emptyResult)
    | some (x :: xs) =>
      let q := { query with id := some (joinIds (x :: xs)) }
      let r := queryItemsRun w (some i) (parseQuery q 0) q.search q.lang options
      ({ finalQuery := q, didListingFetch := r.1.didListingFetch
         wroteCache := r.1.wroteCache }, r.2)

/-! Concrete inputs and specification predicates used by the theorems. -/

/-- Concrete upstream paging oracle: pages of 100, 100 and 47 items, then
the empty terminal page. -/
def pagesC2 : Nat → PageResult := fun p =>
  if p ≤ 2 then .ok (List.replicate 100 default)
  else if p = 3 then .ok (List.replicate 47 default)
  else .ok []

/-- Concrete failing upstream: one nonempty page, then a 500. -/
def pagesC4 : Nat → PageResult := fun p =>
  if p = 1 then .ok [default] else .fail 500

/-- Concrete poll response: exactly 20 items, all freshly modified. -/
def respC5 : LastModResp :=
  { ok := true
    items := (List.range 20).map (fun n =>
      { (default : RawItem) with oid := n, modified := some [⟨none, "recent"⟩] }) }

/-- Concrete world whose getItem yields an empty linked-item list. -/
def worldC8 : World :=
  { getItemItems := fun _ => some []
    queryCache := fun _ => none
    listing := fun _ => .ok []
    filters := default
    creators := []
    counts := { creators := 0, objects := 0 } }

/-- Concrete world whose getItem yields linked items 1 and 2. -/
def worldC10 : World :=
  { getItemItems := fun _ => some [1, 2]
    queryCache := fun _ => none
    listing := fun _ => .ok []
    filters := default
    creators := []
    counts := { creators := 0, objects := 0 } }

/-- Concrete listing with two creator items, for the collator claim. -/
def worldC7 : World :=
  { getItemItems := fun _ => none
    queryCache := fun _ => none
    listing := fun _ => .ok
      [{ (default : RawItem) with
          oid := 1, atType := ["foaf:Person"], title := some [⟨some "en", "Ann"⟩] },
        { (default : RawItem) with
          oid := 2, atType := ["foaf:Person"], title := some [⟨some "en", "Bob"⟩] }]
    filters := default
    creators := []
    counts := { creators := 0, objects := 0 } }

/-- Concrete world for the canonicalization witness. -/
def worldC3 : World :=
  { getItemItems := fun _ => none
    queryCache := fun _ => none
    listing := fun _ => .ok []
    filters := default
    creators := []
    counts := { creators := 0, objects := 0 } }

/-- Count bound to a key of a JavaScript object modelled as an assoc
list. -/
def lookupKey (ps : List (String × Nat)) (k : String) : Option Nat :=
  (ps.find? (fun p => p.1 = k)).map (fun p => p.2)

/-- Combined count of an existing binding and newly accumulated hits. -/
def mergeCount : Option Nat → Nat → Option Nat
  | some c, n => some (c + n)
  | none, n => if n = 0 then none else some n

/-- Year predicate of the facet histogram. -/
def hasYear (k : String) (it : RawItem) : Bool := yearOf it = some k

/-- Concrete mirror exhibiting the objectType sort anomaly: the 4561
category is the most-referenced one, so its force-zeroed entry heads the
list. -/
def mirrorC1 : List RawItem :=
  [{ (default : RawItem) with
      oid := 4561, atType := ["skos:Concept"], title := some [⟨some "en", "Issue"⟩] },
    { (default : RawItem) with
      oid := 9, atType := ["skos:Concept"], title := some [⟨some "en", "Poster"⟩] },
    { (default : RawItem) with oid := 100, atType := ["o:Item"], category := some [⟨4561⟩] },
    { (default : RawItem) with oid := 101, atType := ["o:Item"], category := some [⟨4561⟩] },
    { (default : RawItem) with oid := 102, atType := ["o:Item"], category := some [⟨9⟩] }]

/-- The facet-count property of getFilters: per-value counts over the
right item population, zero-count exclusion, the force-zeroed excluded
category, and descending count order (for objectType: up to the
force-zeroing, which is applied after the sort). -/
def FacetCountSpec (allItems : List RawItem) : Prop :=
  (∀ e ∈ (getFilters allItems).creator,
    e.count = (allItemsButIssues allItems).countP (hasRefTo .creator e.id) ∧ 0 < e.count) ∧
  (∀ e ∈ (getFilters allItems).theme,
    e.count = (allItemsButIssues allItems).countP (hasRefTo .theme e.id) ∧ 0 < e.count) ∧
  (∀ e ∈ (getFilters allItems).era,
    e.count = (allItemsButIssues allItems).countP (hasRefTo .era e.id) ∧ 0 < e.count) ∧
  (∀ e ∈ (getFilters allItems).year,
    e.count = (allItemsButIssues allItems).countP (hasYear e.value) ∧ 0 < e.count) ∧
  (∀ e ∈ (getFilters allItems).objectType,
    (e.id = 4561 → e.count = 0) ∧
    (e.id ≠ 4561 → e.count = allItems.countP (hasRefTo .objectType e.id) ∧ 0 < e.count)) ∧
  List.Sorted entryGE (getFilters allItems).creator ∧
  List.Sorted entryGE (getFilters allItems).theme ∧
  List.Sorted entryGE (getFilters allItems).era ∧
  List.Sorted yearGE (getFilters allItems).year ∧
  (∃ L, List.Sorted entryGE L ∧ (getFilters allItems).objectType = L.map forceZero4561)

/-! Theorems about the bulk mirror fetcher. -/


/-- C2 (counterexample): with upstream pages of 100, 100 and 47 items the
mirror does have 247 items, but the loop only breaks on a page with zero
items, so the terminal empty page costs a fourth upstream call — the
claimed count of exactly 3 calls is false. -/
theorem getAllItems_scenario_cex :
    mirrorSize pagesC2 10 = some 247 ∧ mirrorCalls pagesC2 10 = some 4 ∧
      mirrorCalls pagesC2 10 ≠ some 3 := by
  have h4 : mirrorCalls pagesC2 10 = some 4 := rfl
  exact ⟨rfl, h4, by rw [h4]; decide⟩

/-- C2 (amended): getAllItems pages sequentially from page 1, appending
each page's items, and terminates exactly when a page returns zero items;
with upstream pages of 100, 100 and 47 items followed by the empty page,
the mirror has 247 items and exactly 4 upstream calls are made (the
terminal empty page requires its own call). -/
theorem getAllItems_scenario (u : Nat → PageResult) (l1 l2 l3 : List RawItem)
    (h1 : u 1 = .ok l1) (e1 : l1.length = 100)
    (h2 : u 2 = .ok l2) (e2 : l2.length = 100)
    (h3 : u 3 = .ok l3) (e3 : l3.length = 47)
    (h4 : u 4 = .ok []) (fuel : Nat) (hf : 4 ≤ fuel) :
    getAllItems u fuel none false =
      some { outcome := .ok (l1 ++ l2 ++ l3), cacheAfter := some (l1 ++ l2 ++ l3)
             calls := 4 } ∧
      (l1 ++ l2 ++ l3).length = 247 := by
  obtain ⟨k, rfl⟩ := Nat.exists_eq_add_of_le' hf
  have n1 : l1.isEmpty = false := by cases l1 with | nil => simp at e1 | cons a t => rfl
  have n2 : l2.isEmpty = false := by cases l2 with | nil => simp at e2 | cons a t => rfl
  have n3 : l3.isEmpty = false := by cases l3 with | nil => simp at e3 | cons a t => rfl
  constructor
  · simp only [getAllItems, getAllItemsGo, h1, h2, h3, h4, n1, n2, n3,
      Bool.false_eq_true, if_false, List.isEmpty_nil, if_true, List.nil_append,
      List.append_assoc]
  · simp [e1, e2, e3]

/-- C2 (witness): the amended paging theorem at the concrete pages of 100,
100 and 47 items. -/
theorem getAllItems_scenario_witness :
    getAllItems pagesC2 10 none false =
      some { outcome := .ok (List.replicate 100 (default : RawItem) ++
              List.replicate 100 default ++ List.replicate 47 default)
             cacheAfter := some (List.replicate 100 (default : RawItem) ++
              List.replicate 100 default ++ List.replicate 47 default)
             calls := 4 } ∧
    (List.replicate 100 (default : RawItem) ++ List.replicate 100 default ++
      List.replicate 47 default).length = 247 :=
  getAllItems_scenario pagesC2 _ _ _ rfl (by simp) rfl (by simp) rfl (by simp) rfl
    10 (by decide)

/-- Paging-loop error propagation: if every page before page (page + d) is
nonempty and page (page + d) raises, the loop result is that error. -/
theorem getAllItemsGo_error_of_fail (u : Nat → PageResult) (e : Nat) :
    ∀ (d fuel page : Nat) (acc : List RawItem) (calls : Nat), d < fuel →
      (∀ j, page ≤ j → j < page + d → ∃ l, u j = .ok l ∧ l ≠ []) →
      u (page + d) = .fail e →
      getAllItemsGo u fuel page acc calls = some (.error e) := by
  intro d
  induction d with
  | zero =>
    intro fuel page acc calls hf hok herr
    match fuel, hf with
    | fuel + 1, _ =>
      rw [Nat.add_zero] at herr
      simp only [getAllItemsGo, herr]
  | succ d ih =>
    intro fuel page acc calls hf hok herr
    match fuel, hf with
    | fuel + 1, hf =>
      obtain ⟨l, hl, hne⟩ := hok page (Nat.le_refl _) (by omega)
      have hemp : l.isEmpty = false := by
        cases l with | nil => exact absurd rfl hne | cons a t => rfl
      simp only [getAllItemsGo, hl, hemp, Bool.false_eq_true, if_false]
      exact ih fuel (page + 1) (acc ++ l) (calls + 1) (by omega)
        (fun j hj1 hj2 => hok j (by omega) (by omega))
        (by rw [show page + 1 + d = page + (d + 1) by omega]; exact herr)

/-- C4: if any upstream page request raises during a cold-cache bulk
fetch, getAllItems propagates the error and writes no "allItems" cache
entry — the cache stays exactly as it was (here: absent), never a
truncated item list. -/
theorem getAllItems_error_aborts (u : Nat → PageResult) (k e : Nat) (hk : 1 ≤ k)
    (hok : ∀ j, 1 ≤ j → j < k → ∃ l, u j = .ok l ∧ l ≠ [])
    (herr : u k = .fail e) (fuel : Nat) (hf : k ≤ fuel) :
    ∃ c, getAllItems u fuel none false =
      some { outcome := .error e, cacheAfter := none, calls := c } := by
  have hgo : getAllItemsGo u fuel 1 [] 0 = some (.error e) :=
    getAllItemsGo_error_of_fail u e (k - 1) fuel 1 [] 0 (by omega)
      (fun j hj1 hj2 => hok j hj1 (by omega))
      (by rw [show 1 + (k - 1) = k by omega]; exact herr)
  exact ⟨getAllItemsGoCalls u fuel 1 0, by simp only [getAllItems, hgo]⟩


/-- C4 (witness): the error-abort theorem applied to a concrete upstream
failing at page 2. -/
theorem getAllItems_error_aborts_witness :
    ∃ c, getAllItems pagesC4 10 none false =
      some { outcome := .error 500, cacheAfter := none, calls := c } :=
  getAllItems_error_aborts pagesC4 2 500 (by decide)
    (fun j hj1 hj2 => ⟨[default], by simp [pagesC4, show j = 1 by omega], by decide⟩)
    rfl 10 (by decide)

/-! Theorems about the invalidation loop. -/

/-- C5: whenever the modified-item poll returns (after the recency filter)
a batch of exactly 20 items — the requested limit of the update loop — the
full cache flush plus mirror rebuild is triggered. -/
theorem update_full_batch_flushes (parseTime : Option NormValue → Option Int)
    (now : Int) (resp : LastModResp) (hok : resp.ok = true)
    (hlen : (resp.items.filter
      (isRecentlyModified parseTime now (1000 * 60 * 1))).length = 20) :
    (update parseTime now resp).flushed = true := by
  norm_num at hlen
  simp only [update, getLastModified, hok, if_true]
  simp [hlen]


/-- C5 (witness): the flush theorem applied to a poll returning exactly 20
recent items. -/
theorem update_full_batch_flushes_witness :
    (update (fun _ => some 0) 0 respC5).flushed = true :=
  update_full_batch_flushes (fun _ => some 0) 0 respC5 rfl (by decide)

/-! Theorems about queryItems. -/

/-- C8: a parent-scoped queryItems call whose parent resolves to a null or
empty linked-item-id list returns the empty object at once — no listing
fetch, no cache write, no query mutation, and the outcome is the empty
result rather than an error. -/
theorem queryItems_empty_parent (w : World) (i : Nat) (query : Query)
    (options : QOptions)
    (h : w.getItemItems i = none ∨ w.getItemItems i = some []) :
    queryItems w (some i) query options =
      ({ finalQuery := query, didListingFetch := false, wroteCache := none },
        .emptyResult) := by
  rcases h with h | h <;> simp [queryItems, h]


/-- C8 (witness): the empty-scope theorem at a concrete world. -/
theorem queryItems_empty_parent_witness :
    queryItems worldC8 (some 7) {} {} =
      ({ finalQuery := {}, didListingFetch := false, wroteCache := none },
        .emptyResult) :=
  queryItems_empty_parent worldC8 7 {} {} (Or.inr rfl)

/-- C10: a parent-scoped queryItems call with a nonempty linked-item list
writes the joined ids into the caller's query object — afterwards the
object equals the original with only its id field replaced, so it
observably differs whenever its previous id differed from the joined
ids. -/
theorem queryItems_mutates_query (w : World) (i : Nat) (query : Query)
    (options : QOptions) (x : Nat) (xs : List Nat)
    (h : w.getItemItems i = some (x :: xs)) :
    (queryItems w (some i) query options).1.finalQuery =
      { query with id := some (joinIds (x :: xs)) } ∧
    (query.id ≠ some (joinIds (x :: xs)) →
      (queryItems w (some i) query options).1.finalQuery ≠ query) := by
  have hq : (queryItems w (some i) query options).1.finalQuery =
      { query with id := some (joinIds (x :: xs)) } := by
    simp [queryItems, h]
  refine ⟨hq, fun hne heq => hne ?_⟩
  rw [hq] at heq
  exact (congrArg Query.id heq).symm


/-- C10 (witness): the mutation theorem at a concrete world and query. -/
theorem queryItems_mutates_query_witness :
    (queryItems worldC10 (some 5) {} {}).1.finalQuery =
      { ({} : Query) with id := some (joinIds [1, 2]) } ∧
    (({} : Query).id ≠ some (joinIds [1, 2]) →
      (queryItems worldC10 (some 5) {} {}).1.finalQuery ≠ {}) :=
  queryItems_mutates_query worldC10 5 {} {} 1 [2] rfl


/-- C7: the collator table has exactly the keys "en" and "zh"; a query in
any other language reaching the creator sort with at least two creators
dereferences an undefined collator, so queryItems crashes with a
TypeError instead of falling back to a default comparison. -/
theorem queryItems_unknown_lang_crashes :
    collators "fr" = none ∧
    (queryItems worldC7 none { lang := some "fr" } { retrieveCreators := false }).2 =
      .crash :=
  ⟨rfl, rfl⟩

/-! Order properties of the string comparison used by the canonical
sorts. -/

/-- Characters with equal code points are equal. -/
theorem charToNat_inj {a b : Char} (h : a.toNat = b.toNat) : a = b :=
  Char.ext (UInt32.ext h)

/-- Totality of the lexicographic comparison. -/
theorem charListLE_total : ∀ as bs : List Char,
    charListLE as bs = true ∨ charListLE bs as = true := by
  intro as
  induction as with
  | nil => intro bs; left; rfl
  | cons a as ih =>
    intro bs
    cases bs with
    | nil => right; rfl
    | cons b bs =>
      by_cases hab : a = b
      · subst hab
        rcases ih bs with h | h
        · left; simpa [charListLE] using h
        · right; simpa [charListLE] using h
      · have hba : ¬ b = a := fun h => hab h.symm
        have hne : a.toNat ≠ b.toNat := fun h => hab (charToNat_inj h)
        rcases Nat.lt_or_ge a.toNat b.toNat with h | h
        · left; simp [charListLE, hab, h]
        · right; simp only [charListLE, if_neg hba]
          exact decide_eq_true (by omega)

/-- Transitivity of the lexicographic comparison. -/
theorem charListLE_trans : ∀ as bs cs : List Char, charListLE as bs = true →
    charListLE bs cs = true → charListLE as cs = true := by
  intro as
  induction as with
  | nil => intro bs cs h1 h2; rfl
  | cons a as ih =>
    intro bs cs h1 h2
    cases bs with
    | nil => simp [charListLE] at h1
    | cons b bs =>
      cases cs with
      | nil => simp [charListLE] at h2
      | cons c cs =>
        by_cases hab : a = b
        · subst hab
          by_cases hac : a = c
          · subst hac
            simp only [charListLE, if_pos rfl] at h1 h2 ⊢
            exact ih _ _ h1 h2
          · simp only [charListLE, if_pos rfl, if_neg hac] at h2 ⊢
            exact h2
        · simp only [charListLE, if_neg hab] at h1
          have h1' : a.toNat < b.toNat := of_decide_eq_true h1
          by_cases hbc : b = c
          · subst hbc
            simp only [charListLE, if_neg hab]
            exact decide_eq_true h1'
          · simp only [charListLE, if_neg hbc] at h2
            have h2' : b.toNat < c.toNat := of_decide_eq_true h2
            have hac : ¬ a = c := fun h => by subst h; omega
            simp only [charListLE, if_neg hac]
            exact decide_eq_true (by omega)

/-- Antisymmetry of the lexicographic comparison. -/
theorem charListLE_antisymm : ∀ as bs : List Char, charListLE as bs = true →
    charListLE bs as = true → as = bs := by
  intro as
  induction as with
  | nil =>
    intro bs h1 h2
    cases bs with
    | nil => rfl
    | cons b bs => simp [charListLE] at h2
  | cons a as ih =>
    intro bs h1 h2
    cases bs with
    | nil => simp [charListLE] at h1
    | cons b bs =>
      by_cases hab : a = b
      · subst hab
        simp only [charListLE, if_pos rfl] at h1 h2
        rw [ih bs h1 h2]
      · have hba : ¬ b = a := fun h => hab h.symm
        simp only [charListLE, if_neg hab] at h1
        simp only [charListLE, if_neg hba] at h2
        have l1 := of_decide_eq_true h1
        have l2 := of_decide_eq_true h2
        omega

instance : IsTotal String strLE := ⟨fun a b => charListLE_total a.data b.data⟩

instance : IsTrans String strLE := ⟨fun a b c => charListLE_trans a.data b.data c.data⟩

instance : IsAntisymm String strLE :=
  ⟨fun a b h1 h2 => by
    have h := charListLE_antisymm a.data b.data h1 h2
    cases a; cases b; exact congrArg String.mk h⟩

/-! Theorems about search-term handling. -/

/-- C6 (counterexample): for the search string "a, 中, abc" the trigger
terms computed by normalizeSearchString are " abc" and " 中" — the split
keeps the surrounding spaces, so the claimed set is not produced — and the
short non-CJK token still contributes snippet matches: on a text
containing neither 中 nor abc, snippet extraction matches the token
"a,". -/
theorem normalizeSearchString_cex :
    normalizeSearchString (some "a, 中, abc") = [" abc", " 中"] ∧
    "abc" ∉ normalizeSearchString (some "a, 中, abc") ∧
    "中" ∉ normalizeSearchString (some "a, 中, abc") ∧
    extractSnippets { id := 1, description := some (.scalar "za, z") } "a, 中, abc" =
      [{ term := "a,", snippet := "za, z" }] :=
  ⟨rfl, by decide, by decide, rfl⟩

/-- C6 (amended): every term normalizeSearchString keeps is at least 3
UTF-16 units long or contains a Han character, and a search string all of
whose comma-separated terms are short and non-CJK yields no trigger terms
(so no snippet computation); the terms keep their surrounding whitespace
("a, 中, abc" yields " abc" and " 中"), and once a qualifying term exists
the snippet regex is built from the whitespace-tokens of the raw search
string, which include short non-CJK tokens such as "a,". -/
theorem normalizeSearchString_qualifying :
    (∀ s t, t ∈ normalizeSearchString (some s) →
      3 ≤ utf16Len t ∨ containsHan t = true) ∧
    (∀ s, (∀ t ∈ splitComma s, utf16Len t < 3 ∧ containsHan t = false) →
      normalizeSearchString (some s) = []) ∧
    normalizeSearchString (some "a") = [] ∧
    normalizeSearchString (some "a, 中, abc") = [" abc", " 中"] ∧
    searchTerms "a, 中, abc" = ["a,", "中,", "abc"] := by
  refine ⟨?_, ?_, rfl, rfl, rfl⟩
  · intro s t ht
    have hmem : t ∈ (splitComma s).filter (fun t => 3 ≤ utf16Len t || containsHan t) :=
      (List.perm_insertionSort _ _).subset ht
    have hp := (List.mem_filter.mp hmem).2
    simpa using hp
  · intro s h
    have hf : (splitComma s).filter (fun t => 3 ≤ utf16Len t || containsHan t) = [] := by
      rw [List.filter_eq_nil_iff]
      intro t ht
      obtain ⟨h1, h2⟩ := h t ht
      simp [h2]
      omega
    simp [normalizeSearchString, sortStrings, hf]

/-- C6 (witness): the qualifying-term theorem applied to the term " abc"
of the concrete search string. -/
theorem normalizeSearchString_qualifying_witness :
    3 ≤ utf16Len " abc" ∨ containsHan " abc" = true :=
  normalizeSearchString_qualifying.1 "a, 中, abc" " abc" (by decide)

/-! Theorems about query canonicalization. -/

/-- splitCommaAux never returns the empty list. -/
theorem splitCommaAux_ne_nil (cs : List Char) : ∀ cur, splitCommaAux cs cur ≠ [] := by
  induction cs with
  | nil => intro cur; simp [splitCommaAux]
  | cons c rest ih =>
    intro cur
    by_cases h : c = ','
    · simp [splitCommaAux, h]
    · simp only [splitCommaAux, if_neg h]
      exact ih _

/-- A present facet value splits into at least one field. -/
theorem splitVals_some_ne_nil (s : String) : splitVals (some s) ≠ [] :=
  splitCommaAux_ne_nil _ _

/-- Permutation of the splits forces equal presence of the facet keys. -/
theorem isSome_of_splitVals_perm {a b : Option String}
    (h : (splitVals a).Perm (splitVals b)) : a.isSome = b.isSome := by
  cases a with
  | none =>
    cases b with
    | none => rfl
    | some s => exact absurd h.nil_eq.symm (splitVals_some_ne_nil s)
  | some s =>
    cases b with
    | none => exact absurd h.symm.nil_eq.symm (splitVals_some_ne_nil s)
    | some s2 => rfl

/-- Sorting is permutation-invariant: the canonical order of a facet's
values does not depend on their input order. -/
theorem sortStrings_congr {xs ys : List String} (h : xs.Perm ys) :
    sortStrings xs = sortStrings ys :=
  List.eq_of_perm_of_sorted
    ((List.perm_insertionSort _ xs).trans (h.trans (List.perm_insertionSort _ ys).symm))
    (List.sorted_insertionSort _ xs) (List.sorted_insertionSort _ ys)

/-- parseQuery canonicalizes permuted facet values identically: two query
objects whose facet values are permutations of each other (and that agree
on search, limit, page and id) parse to the same record. -/
theorem parseQuery_perm_invariant (q1 q2 : Query)
    (hobj : (splitVals q1.objectType).Perm (splitVals q2.objectType))
    (hcre : (splitVals q1.creator).Perm (splitVals q2.creator))
    (hthe : (splitVals q1.theme).Perm (splitVals q2.theme))
    (hera : (splitVals q1.era).Perm (splitVals q2.era))
    (hyr : (splitVals q1.year).Perm (splitVals q2.year))
    (hsearch : q1.search = q2.search) (hlimit : q1.limit = q2.limit)
    (hpage : q1.page = q2.page) (hid : q1.id = q2.id) (offset : Nat) :
    parseQuery q1 offset = parseQuery q2 offset := by
  have e1 := sortStrings_congr hobj
  have e2 := sortStrings_congr hcre
  have e3 := sortStrings_congr hthe
  have e4 := sortStrings_congr hera
  have e5 := sortStrings_congr hyr
  have p1 := isSome_of_splitVals_perm hobj
  have p2 := isSome_of_splitVals_perm hcre
  have p3 := isSome_of_splitVals_perm hthe
  have p4 := isSome_of_splitVals_perm hera
  have p5 := isSome_of_splitVals_perm hyr
  simp only [parseQuery, filterKeys, Query.facet, List.any_cons, List.any_nil,
    List.map_cons, List.map_nil, e1, e2, e3, e4, e5, p1, p2, p3, p4, p5,
    hsearch, hlimit, hpage, hid]

/-- C3: query objects whose facet filter values are the same multisets in
different input order canonicalize to the identical query string, hence
the identical cache key, and queryItems returns the identical outcome for
both. -/
theorem queryItems_order_insensitive (w : World) (id : Option Nat)
    (options : QOptions) (q1 q2 : Query)
    (hobj : (splitVals q1.objectType).Perm (splitVals q2.objectType))
    (hcre : (splitVals q1.creator).Perm (splitVals q2.creator))
    (hthe : (splitVals q1.theme).Perm (splitVals q2.theme))
    (hera : (splitVals q1.era).Perm (splitVals q2.era))
    (hyr : (splitVals q1.year).Perm (splitVals q2.year))
    (hsearch : q1.search = q2.search) (hlimit : q1.limit = q2.limit)
    (hpage : q1.page = q2.page) (hid : q1.id = q2.id)
    (hlang : q1.lang = q2.lang) :
    (parseQuery q1 0).queryString = (parseQuery q2 0).queryString ∧
    "query:" ++ (parseQuery q1 0).queryString =
      "query:" ++ (parseQuery q2 0).queryString ∧
    (queryItems w id q1 options).2 = (queryItems w id q2 options).2 := by
  have hpq : parseQuery q1 0 = parseQuery q2 0 :=
    parseQuery_perm_invariant q1 q2 hobj hcre hthe hera hyr hsearch hlimit hpage hid 0
  refine ⟨by rw [hpq], by rw [hpq], ?_⟩
  cases id with
  | none =>
    simp only [queryItems]
    simp only [hpq, hsearch, hlang]
  | some i =>
    simp only [queryItems]
    cases hgi : w.getItemItems i with
    | none => rfl
    | some l =>
      cases l with
      | nil => rfl
      | cons x xs =>
        have hpq' : parseQuery { q1 with id := some (joinIds (x :: xs)) } 0 =
            parseQuery { q2 with id := some (joinIds (x :: xs)) } 0 :=
          parseQuery_perm_invariant { q1 with id := some (joinIds (x :: xs)) }
            { q2 with id := some (joinIds (x :: xs)) } hobj hcre hthe hera hyr
            hsearch hlimit hpage rfl 0
        show (queryItemsRun w (some i)
            (parseQuery { q1 with id := some (joinIds (x :: xs)) } 0)
            q1.search q1.lang options).2 =
          (queryItemsRun w (some i)
            (parseQuery { q2 with id := some (joinIds (x :: xs)) } 0)
            q2.search q2.lang options).2
        rw [hpq', hsearch, hlang]


/-- C3 (witness): creator "B,A" and creator "A,B" canonicalize and query
identically in a concrete world. -/
theorem queryItems_order_insensitive_witness :
    (parseQuery { creator := some "B,A" } 0).queryString =
      (parseQuery { creator := some "A,B" } 0).queryString ∧
    "query:" ++ (parseQuery { creator := some "B,A" } 0).queryString =
      "query:" ++ (parseQuery { creator := some "A,B" } 0).queryString ∧
    (queryItems worldC3 none { creator := some "B,A" } {}).2 =
      (queryItems worldC3 none { creator := some "A,B" } {}).2 :=
  queryItems_order_insensitive worldC3 none {} { creator := some "B,A" }
    { creator := some "A,B" } (by decide) (by decide) (by decide) (by decide)
    (by decide) rfl rfl rfl rfl rfl

/-! Theorems about the facet engine. -/






/-- Lookup steps through one binding. -/
theorem lookupKey_cons (p : String × Nat) (ps : List (String × Nat)) (k : String) :
    lookupKey (p :: ps) k = if p.1 = k then some p.2 else lookupKey ps k := by
  by_cases h : p.1 = k <;> simp [lookupKey, List.find?_cons, h]

/-- Bumping a key increments exactly that key's binding. -/
theorem lookupKey_bumpKey_self (ps : List (String × Nat)) (k : String) :
    lookupKey (bumpKey ps k) k = some ((lookupKey ps k).getD 0 + 1) := by
  induction ps with
  | nil => simp [bumpKey, lookupKey]
  | cons p ps ih =>
    by_cases hp : p.1 = k
    · simp [bumpKey, hp, lookupKey_cons]
    · simp only [bumpKey, if_neg hp]
      rw [lookupKey_cons, if_neg hp, lookupKey_cons, if_neg hp, ih]

/-- Bumping a key leaves the other keys' bindings unchanged. -/
theorem lookupKey_bumpKey_other (ps : List (String × Nat)) (k k' : String)
    (hk : k' ≠ k) : lookupKey (bumpKey ps k) k' = lookupKey ps k' := by
  have hkk : ¬ k = k' := fun h => hk h.symm
  induction ps with
  | nil => simp [bumpKey, lookupKey, lookupKey_cons, hkk]
  | cons p ps ih =>
    by_cases hp : p.1 = k
    · simp only [bumpKey, if_pos hp]
      rw [lookupKey_cons, lookupKey_cons]
      have hp' : ¬ p.1 = k' := by rw [hp]; exact hkk
      rw [if_neg hp', if_neg hp']
    · simp only [bumpKey, if_neg hp]
      rw [lookupKey_cons, lookupKey_cons, ih]

/-- Keys of a bumped object are the old keys, plus possibly the bumped
one. -/
theorem mem_keys_bumpKey {ps : List (String × Nat)} {k x : String}
    (h : x ∈ (bumpKey ps k).map Prod.fst) : x ∈ ps.map Prod.fst ∨ x = k := by
  induction ps with
  | nil => simpa [bumpKey] using h
  | cons p ps ih =>
    by_cases hp : p.1 = k
    · simp only [bumpKey, if_pos hp, List.map_cons] at h
      rcases List.mem_cons.mp h with rfl | h
      · exact Or.inl (by simp)
      · exact Or.inl (by simp [List.mem_cons.mpr (Or.inr h)])
    · simp only [bumpKey, if_neg hp, List.map_cons, List.mem_cons] at h
      rcases h with rfl | h
      · exact Or.inl (by simp)
      · rcases ih h with hm | hm
        · exact Or.inl (by simp [List.mem_cons.mpr (Or.inr hm)])
        · exact Or.inr hm

/-- Bumping preserves key distinctness. -/
theorem nodupKeys_bumpKey {ps : List (String × Nat)} (k : String)
    (h : (ps.map Prod.fst).Nodup) : ((bumpKey ps k).map Prod.fst).Nodup := by
  induction ps with
  | nil => simp [bumpKey]
  | cons p ps ih =>
    rw [List.map_cons, List.nodup_cons] at h
    obtain ⟨hnm, hnd⟩ := h
    by_cases hp : p.1 = k
    · have he : (bumpKey (p :: ps) k).map Prod.fst = p.1 :: ps.map Prod.fst := by
        simp [bumpKey, hp]
      rw [he, List.nodup_cons]
      exact ⟨hnm, hnd⟩
    · have he : (bumpKey (p :: ps) k).map Prod.fst =
          p.1 :: (bumpKey ps k).map Prod.fst := by
        simp [bumpKey, hp]
      rw [he, List.nodup_cons]
      refine ⟨fun hmem => ?_, ih hnd⟩
      rcases mem_keys_bumpKey hmem with hm | hm
      · exact hnm hm
      · exact hp hm

/-- Lookup in the accumulated years object: the binding after folding a
list of items merges the prior binding with the item count of the key's
year. -/
theorem lookupKey_yearsFold (l : List RawItem) :
    ∀ (acc : List (String × Nat)) (k : String),
    lookupKey
      (l.foldl
        (fun acc it => match yearOf it with | none => acc | some y => bumpKey acc y) acc)
      k = mergeCount (lookupKey acc k) (l.countP (hasYear k)) := by
  induction l with
  | nil =>
    intro acc k
    cases h : lookupKey acc k <;> simp [mergeCount, h]
  | cons it l ih =>
    intro acc k
    rw [List.foldl_cons, List.countP_cons]
    cases hy : yearOf it with
    | none =>
      have hp : hasYear k it = false := by simp [hasYear, hy]
      simp only [hy, hp, Bool.false_eq_true, if_false, Nat.add_zero]
      exact ih acc k
    | some y =>
      by_cases hk : k = y
      · subst hk
        have hp : hasYear k it = true := by simp [hasYear, hy]
        simp only [hy, hp, if_true]
        rw [ih (bumpKey acc k) k, lookupKey_bumpKey_self]
        cases h : lookupKey acc k with
        | none => simp [mergeCount]; omega
        | some c => simp [mergeCount, Nat.add_assoc, Nat.add_comm]
      · have hk' : ¬ y = k := fun h => hk h.symm
        have hp : hasYear k it = false := by simp [hasYear, hy, hk']
        simp only [hy, hp, Bool.false_eq_true, if_false, Nat.add_zero]
        rw [ih (bumpKey acc y) k, lookupKey_bumpKey_other acc y k hk]

/-- The years object has distinct keys. -/
theorem nodupKeys_yearsMap (items : List RawItem) :
    ((yearsMap items).map Prod.fst).Nodup := by
  suffices h : ∀ (l : List RawItem) (acc : List (String × Nat)),
      (acc.map Prod.fst).Nodup →
      ((l.foldl
        (fun acc it => match yearOf it with | none => acc | some y => bumpKey acc y)
        acc).map Prod.fst).Nodup by
    exact h items [] (by simp)
  intro l
  induction l with
  | nil => intro acc h; simpa using h
  | cons it l ih =>
    intro acc h
    rw [List.foldl_cons]
    cases hy : yearOf it with
    | none => simp only [hy]; exact ih acc h
    | some y => simp only [hy]; exact ih (bumpKey acc y) (nodupKeys_bumpKey y h)

/-- In an object with distinct keys, membership determines the lookup. -/
theorem lookupKey_of_mem {ps : List (String × Nat)} {k : String} {c : Nat}
    (hnd : (ps.map Prod.fst).Nodup) (h : (k, c) ∈ ps) : lookupKey ps k = some c := by
  induction ps with
  | nil => simp at h
  | cons p ps ih =>
    rw [List.map_cons, List.nodup_cons] at hnd
    obtain ⟨hnm, hnd'⟩ := hnd
    rcases List.mem_cons.mp h with rfl | h
    · simp [lookupKey_cons]
    · have hp : ¬ p.1 = k := by
        intro hk
        have hmem : k ∈ ps.map Prod.fst := List.mem_map_of_mem Prod.fst h
        rw [← hk] at hmem
        exact hnm hmem
      rw [lookupKey_cons, if_neg hp]
      exact ih hnd' h

/-- Membership in the enumerated object implies membership in the
underlying assoc list. -/
theorem mem_jsObjectEntries {ps : List (String × Nat)} {p : String × Nat}
    (h : p ∈ jsObjectEntries ps) : p ∈ ps := by
  rcases List.mem_append.mp h with h | h
  · exact (List.mem_filter.mp ((List.perm_insertionSort idxLE _).subset h)).1
  · exact (List.mem_filter.mp h).1

/-- Every year facet entry counts exactly the items of its year, and the
count is positive. -/
theorem mem_getFilterYears {items : List RawItem} {e : YearEntry}
    (he : e ∈ getFilterYears items) :
    e.count = items.countP (hasYear e.value) ∧ 0 < e.count := by
  have h1 := (List.perm_insertionSort yearGE _).subset he
  obtain ⟨p, hp, rfl⟩ := List.mem_map.mp h1
  have hp' : p ∈ yearsMap items := mem_jsObjectEntries hp
  have hl : lookupKey (yearsMap items) p.1 = some p.2 :=
    lookupKey_of_mem (nodupKeys_yearsMap items) hp'
  have hl2 : lookupKey (yearsMap items) p.1 =
      mergeCount (lookupKey [] p.1) (items.countP (hasYear p.1)) :=
    lookupKey_yearsFold items [] p.1
  rw [hl] at hl2
  have hnone : lookupKey ([] : List (String × Nat)) p.1 = none := rfl
  rw [hnone] at hl2
  by_cases h0 : items.countP (hasYear p.1) = 0
  · rw [h0] at hl2
    simp [mergeCount] at hl2
  · rw [show mergeCount none (items.countP (hasYear p.1)) =
        some (items.countP (hasYear p.1)) from by simp [mergeCount, h0]] at hl2
    have hc : p.2 = items.countP (hasYear p.1) := by injection hl2
    exact ⟨hc, by show 0 < p.2; omega⟩

/-- Every by-type facet entry counts exactly the items whose
linked-property array references its id, and the count is positive. -/
theorem mem_getFilterByType {k : TypeKey} {items : List RawItem} {e : FilterEntry}
    (he : e ∈ getFilterByType k items) :
    e.count = items.countP (hasRefTo k e.id) ∧ 0 < e.count := by
  have h1 := (List.perm_insertionSort entryGE _).subset he
  obtain ⟨hm, hc⟩ := List.mem_filter.mp h1
  obtain ⟨it, hit, rfl⟩ := List.mem_map.mp hm
  exact ⟨(List.countP_eq_length_filter _ _).symm, of_decide_eq_true hc⟩

/-- C1 (counterexample): the objectType facet list of getFilters is not
always sorted descending by count — the force-zeroing of category 4561
runs after the sort, so when 4561 is the most-referenced category its
zeroed entry still heads the list, ahead of entries with positive
counts. -/
theorem getFilters_objectType_unsorted_cex :
    (getFilters mirrorC1).objectType =
      [{ id := 4561, title := some (.scalar "Issue"), count := 0 },
        { id := 9, title := some (.scalar "Poster"), count := 1 }] ∧
    ¬ List.Sorted entryGE (getFilters mirrorC1).objectType := by
  have heq : (getFilters mirrorC1).objectType =
      [{ id := 4561, title := some (.scalar "Issue"), count := 0 },
        { id := 9, title := some (.scalar "Poster"), count := 1 }] := by decide
  refine ⟨heq, fun h => ?_⟩
  rw [heq] at h
  have hrel := List.rel_of_sorted_cons h _ (List.mem_singleton_self _)
  exact absurd hrel (by decide)

/-- C1 (amended): for every non-empty mirror, every facet entry of
getFilters counts exactly the items whose linked-property array references
its id — over the non-part mirror for year, creator, theme and era, over
all items for objectType — zero counts are excluded except the force-zeroed
category 4561, and each list is sorted descending by count, except that
objectType is sorted before the force-zeroing (so the zeroed entry may sit
out of order). -/
theorem getFilters_facet_counts (allItems : List RawItem) (_hne : allItems ≠ []) :
    FacetCountSpec allItems := by
  refine ⟨fun e he => mem_getFilterByType he,
    fun e he => mem_getFilterByType he,
    fun e he => mem_getFilterByType he,
    fun e he => mem_getFilterYears he,
    ?_,
    List.sorted_insertionSort entryGE _,
    List.sorted_insertionSort entryGE _,
    List.sorted_insertionSort entryGE _,
    List.sorted_insertionSort yearGE _,
    getFilterByType .objectType allItems, List.sorted_insertionSort entryGE _, rfl⟩
  intro e he
  obtain ⟨e0, he0, rfl⟩ := List.mem_map.mp he
  by_cases h : e0.id = 4561
  · refine ⟨fun _ => ?_, fun hne4561 => absurd ?_ hne4561⟩
    · simp [forceZero4561, h]
    · simp [forceZero4561, h]
  · have hfz : forceZero4561 e0 = e0 := by simp [forceZero4561, h]
    rw [hfz]
    exact ⟨fun h4 => absurd h4 h, fun _ => mem_getFilterByType he0⟩

/-- C1 (witness): the facet-count property at the concrete nonempty
mirror. -/
theorem getFilters_facet_counts_witness :
    mirrorC1 ≠ [] ∧ FacetCountSpec mirrorC1 :=
  ⟨by decide, getFilters_facet_counts mirrorC1 (by decide)⟩

end Omeka
